import Mathlib

set_option maxHeartbeats 1000000

/-
Verification of the datathon helper module (src/datathon.py).

The file shallowly embeds the four functions of the module — make_colormap,
plot_model_pred_2d, create_graph and prune — as executable Lean definitions
over ℚ, ℤ and lists, and proves the specified properties about them.
Python floats are modelled as exact rationals, numpy arrays as lists,
fallible Python code (exceptions) as Option-returning functions.
-/

/-! ## Colors and colormap construction (make_colormap) -/


/-! ## Definitions -/

/-- An RGB color; each channel is a rational number (Python floats are modelled
exactly as ℚ). -/
structure Color where
  r : ℚ
  g : ℚ
  b : ℚ
deriving DecidableEq

/-- One element of the input sequence of `make_colormap`: either a float
position or an RGB triple.  The synthetic sentinel triples `(None,) * 3` that
the function prepends and appends are represented by `none` channels; real
colors carry `some` channels. -/
inductive Item where
  | flt (x : ℚ)
  | rgb (r g b : Option ℚ)
deriving DecidableEq

/-- The segment dictionary built by `make_colormap`: per channel a list of
rows `[position, left value, right value]`, exactly the lists appended to
`cdict['red']`, `cdict['green']`, `cdict['blue']` in the source. -/
structure Cdict where
  red : List (ℚ × Option ℚ × Option ℚ)
  green : List (ℚ × Option ℚ × Option ℚ)
  blue : List (ℚ × Option ℚ × Option ℚ)
deriving DecidableEq

/-- The loop of `make_colormap`: `for i, item in enumerate(seq): if
isinstance(item, float): r1,g1,b1 = seq[i-1]; r2,g2,b2 = seq[i+1]; append`.
The loop only reads the direct neighbours of each float, so it is embedded as
a recursion carrying `prev = seq[i-1]` and peeking at `rest.head? = seq[i+1]`.
Unpacking a float neighbour (or a missing one) raises a TypeError/IndexError
in Python; that is modelled as `none`. -/
def cdictAux : Item → List Item → Option Cdict
  | _, [] => some ⟨[], [], []⟩
  | prev, item :: rest =>
    match item, prev, rest.head? with
    | Item.flt x, Item.rgb r1 g1 b1, some (Item.rgb r2 g2 b2) =>
      (cdictAux (Item.flt x) rest).map (fun cd =>
        ⟨(x, r1, r2) :: cd.red, (x, g1, g2) :: cd.green, (x, b1, b2) :: cd.blue⟩)
    | Item.flt _, _, _ => none
    | Item.rgb r g b, _, _ => cdictAux (Item.rgb r g b) rest

/-- `make_colormap` from src/datathon.py.  The source first builds
`seq = [(None,)*3, 0.0] + list(seq) + [1.0, (None,)*3]`; the leading sentinel
triple becomes the initial `prev` of the traversal.  The result is the cdict
handed to `matplotlib.colors.LinearSegmentedColormap`. -/
def make_colormap (seq : List Item) : Option Cdict :=
  cdictAux (Item.rgb none none none)
    (Item.flt 0 :: seq ++ [Item.flt 1, Item.rgb none none none])

/-- Modelled from the spec: the continuous piecewise-linear colormap that
matplotlib's `LinearSegmentedColormap` samples from one channel of the cdict
(spec §3: "a continuous function from [0,1] to an RGB color, built by
piecewise-linear interpolation ... independently per channel").  Between two
consecutive rows `(x1, _, y1)` and `(x2, y0', _)` the value at `t ∈ [x1, x2)`
interpolates from `y1` to `y0'`; at the last position the left value of the
last row is returned (matplotlib's `lut[-1] = y0[-1]`, `lut[0] = y1[0]`).
A `none` channel value that would be consumed aborts the evaluation. -/
def segEval : List (ℚ × Option ℚ × Option ℚ) → ℚ → Option ℚ
  | [], _ => none
  | [(_, y0, _)], _ => y0
  | (x1, _, a1) :: (x2, b0, b1) :: rest, t =>
    if t < x2 then
      match a1, b0 with
      | some v1, some v0 => some (v1 + (v0 - v1) * (t - x1) / (x2 - x1))
      | _, _ => none
    else segEval ((x2, b0, b1) :: rest) t

/-- The value the colormap channel approaches from the left: identical to
`segEval` except that at a breakpoint position the segment ending there is
used (condition `t ≤ x2` instead of `t < x2`), so at `t = x2` it returns the
limit of the linear segment on `[x1, x2]`. -/
def segEvalLeft : List (ℚ × Option ℚ × Option ℚ) → ℚ → Option ℚ
  | [], _ => none
  | [(_, y0, _)], _ => y0
  | (x1, _, a1) :: (x2, b0, b1) :: rest, t =>
    if t ≤ x2 then
      match a1, b0 with
      | some v1, some v0 => some (v1 + (v0 - v1) * (t - x1) / (x2 - x1))
      | _, _ => none
    else segEvalLeft ((x2, b0, b1) :: rest) t

/-- Evaluate all three channels of a cdict at `t`. -/
def cmapEval (cd : Cdict) (t : ℚ) : Option Color :=
  match segEval cd.red t, segEval cd.green t, segEval cd.blue t with
  | some r, some g, some b => some ⟨r, g, b⟩
  | _, _, _ => none

/-- Left-limit version of `cmapEval`. -/
def cmapEvalLeft (cd : Cdict) (t : ℚ) : Option Color :=
  match segEvalLeft cd.red t, segEvalLeft cd.green t, segEvalLeft cd.blue t with
  | some r, some g, some b => some ⟨r, g, b⟩
  | _, _, _ => none

/-- Evaluation through the possibly-failing construction. -/
def evalCM (ocd : Option Cdict) (t : ℚ) : Option Color :=
  ocd.bind (fun cd => cmapEval cd t)

/-- Left-limit evaluation through the possibly-failing construction. -/
def evalCMLeft (ocd : Option Cdict) (t : ℚ) : Option Color :=
  ocd.bind (fun cd => cmapEvalLeft cd t)

/-! ### Valid ColorStop sequences

A valid input (spec §4.1) alternates triples and scalars so that every scalar
is immediately preceded and followed by a triple: `c₀, p₁, c₁, p₂, c₂, …`
with the positions strictly increasing inside (0,1). -/

/-- The item for a real color. -/
def rgbOf (c : Color) : Item := Item.rgb (some c.r) (some c.g) (some c.b)

/-- Items contributed by the explicit stops: `p₁, c₁, p₂, c₂, …`. -/
def stopItems : List (ℚ × Color) → List Item
  | [] => []
  | (p, c) :: rest => Item.flt p :: rgbOf c :: stopItems rest

/-- A full valid input sequence `c₀, p₁, c₁, p₂, c₂, …`. -/
def mkSeq (c0 : Color) (stops : List (ℚ × Color)) : List Item :=
  rgbOf c0 :: stopItems stops

/-- The last color of `c₀, (p₁,c₁), …, (pₖ,cₖ)`, i.e. `cₖ` (or `c₀` if there
are no stops). -/
def lastColor (c : Color) : List (ℚ × Color) → Color
  | [] => c
  | (_, c2) :: rest => lastColor c2 rest

/-- The position of the first stop of a list, or 1 if there is none. -/
def nextPos : List (ℚ × Color) → ℚ
  | [] => 1
  | (q, _) :: _ => q

/-- Validity of the stop positions: strictly increasing and strictly inside
(0,1) — expressed as strict monotonicity of `0, p₁, …, pₖ, 1`. -/
def validStops (stops : List (ℚ × Color)) : Prop :=
  ((0 : ℚ) :: stops.map Prod.fst ++ [1]).Pairwise (· < ·)

instance (stops : List (ℚ × Color)) : Decidable (validStops stops) := by
  unfold validStops; infer_instance

/-- The channel rows that `make_colormap` produces for the stops, given the
color `c` immediately preceding the first stop: one row per stop position and
the final synthetic row at position 1. -/
def chanEntries (f : Color → ℚ) (c : Color) : List (ℚ × Color) → List (ℚ × Option ℚ × Option ℚ)
  | [] => [(1, some (f c), none)]
  | (p, c2) :: rest => (p, some (f c), some (f c2)) :: chanEntries f c2 rest

/-- An input sequence consisting only of RGB triples. -/
def colorItems (l : List Color) : List Item := l.map rgbOf

/-- The per-node arrays of a fitted sklearn tree (`dt.tree_`) that `prune`
reads and mutates: `node_count`, `n_node_samples`, `children_left`,
`children_right`.  In a fitted model each array has length `node_count`. -/
structure TreeObj where
  node_count : ℕ
  n_node_samples : List ℤ
  children_left : List ℤ
  children_right : List ℤ
deriving DecidableEq

/-- A fitted decision-tree model: the stored `min_samples_leaf` parameter
together with its tree structure. -/
structure DecisionTree where
  min_samples_leaf : ℤ
  tree_ : TreeObj
deriving DecidableEq

/-- The notice printed when pruning is requested at a non-larger threshold. -/
def pruneNotice : String := "Decision tree is pruned at an equal or higher level."

/-- One iteration of the loop in `prune`: if `tree.n_node_samples[i] <=
min_samples_leaf` set `children_left[i]` and `children_right[i]` to −1.
(`getD _ 0` models the indexed read; the loop only uses `i < node_count`,
which in a fitted model is within bounds.) -/
def pruneVisit (m : ℤ) (tr : TreeObj) (i : ℕ) : TreeObj :=
  if tr.n_node_samples.getD i 0 ≤ m then
    { tr with children_left := tr.children_left.set i (-1),
              children_right := tr.children_right.set i (-1) }
  else tr

/-- `for i in range(tree.node_count): ...` from `prune`. -/
def pruneLoop (m : ℤ) (t : TreeObj) : TreeObj :=
  (List.range t.node_count).foldl (pruneVisit m) t

/-- `prune` from src/datathon.py.  Returns the model after the call together
with the notice printed (if any): at a non-larger requested threshold nothing
is mutated and the notice is printed; otherwise the stored threshold is
updated and the loop nulls out the children of small nodes. -/
def prune (dt : DecisionTree) (min_samples_leaf : ℤ := 1) :
    DecisionTree × Option String :=
  if dt.min_samples_leaf ≥ min_samples_leaf then
    (dt, some pruneNotice)
  else
    ({ min_samples_leaf := min_samples_leaf,
       tree_ := pruneLoop min_samples_leaf dt.tree_ }, none)

/-- Shared concrete model for the prune witnesses: stored threshold 1, three
nodes with sample counts 10, 2, 8 and children (1,2), (−1,−1), (5,6). -/
def wtree : DecisionTree :=
  ⟨1, ⟨3, [10, 2, 8], [1, -1, 5], [2, -1, 6]⟩⟩

/-- `np.linspace(a, b, n)`: `n` evenly spaced samples from `a` to `b`
inclusive (exact in ℚ: sample i is `a + (b-a)·i/(n-1)`). -/
def linspace (a b : ℚ) (n : ℕ) : List ℚ :=
  (List.range n).map (fun (i : ℕ) => a + (b - a) * (i : ℚ) / ((n : ℚ) - 1))

/-- The flat list of grid sample points `np.c_[xx.ravel(), yy.ravel()]` for
`xx, yy = np.meshgrid(xs, ys)`: entry `j*len(xs)+i` is `(xs[i], ys[j])`. -/
def gridPoints (xs ys : List ℚ) : List (ℚ × ℚ) :=
  ys.flatMap (fun yv => xs.map (fun xv => (xv, yv)))

/-- `matplotlib.colors.to_rgb('#e5813900')`: the RGB part of the translucent
orange, alpha dropped — (0xe5, 0x81, 0x39)/255. -/
def loColor : Color := ⟨229/255, 129/255, 57/255⟩

/-- `matplotlib.colors.to_rgb('#399de5e0')`: the RGB part of the translucent
blue, alpha dropped — (0x39, 0x9d, 0xe5)/255. -/
def hiColor : Color := ⟨57/255, 157/255, 229/255⟩

/-- The i-th appended triple `(hi-lo)*(float(i)/255)+lo` of the default
gradient loop in plot_model_pred_2d. -/
def defaultColor (i : ℕ) : Color :=
  ⟨(hiColor.r - loColor.r) * ((i : ℚ) / 255) + loColor.r,
   (hiColor.g - loColor.g) * ((i : ℚ) / 255) + loColor.g,
   (hiColor.b - loColor.b) * ((i : ℚ) / 255) + loColor.b⟩

/-- The default sequence `s` built by `for i in range(255)`: 255 interpolated
RGB triples passed to make_colormap. -/
def defaultSeq : List Item := colorItems ((List.range 255).map defaultColor)

/-- `if not cm: cm = make_colormap(s)` — the colormap actually used: a passed
Colormap object is truthy and kept, `None` triggers the default gradient. -/
def resolveCm (cm : Option Cdict) : Option Cdict :=
  match cm with
  | some cd => some cd
  | none => make_colormap defaultSeq

/-- What plot_model_pred_2d hands to the plotting backend: the reshaped
prediction grid for `plt.contourf` and the colormaps passed to
`plt.contourf` and `plt.scatter`. -/
structure PlotCalls where
  grid : List (List ℤ)
  contourf_cm : Option Cdict
  scatter_cm : Option Cdict
deriving DecidableEq

/-- plot_model_pred_2d from src/datathon.py, as the data it sends to the
plotting backend.  `predict` is the classifier's pointwise prediction — the
batch call `mdl.predict` maps it over the rows of
`np.c_[xx.ravel(), yy.ravel()]`.  `X[:, k].min()`/`.max()` raise on an empty
matrix, modelled by `none`.  `Z.reshape(xx.shape)` regroups the raveled
predictions into rows of constant y, so row j of the grid is the predictions
along `xs` at `ys[j]` (`grid_join_eq` below checks this against the flat
ravel order). -/
def plot_model_pred_2d (predict : ℚ × ℚ → ℤ) (X : List (ℚ × ℚ))
    (cm : Option Cdict) : Option PlotCalls :=
  match (X.map Prod.fst).min?, (X.map Prod.fst).max?,
        (X.map Prod.snd).min?, (X.map Prod.snd).max? with
  | some x0min, some x0max, some x1min, some x1max =>
    let xs := linspace x0min x0max 100
    let ys := linspace x1min x1max 100
    let Z := ys.map (fun yv => xs.map (fun xv => predict (xv, yv)))
    some { grid := Z, contourf_cm := resolveCm cm, scatter_cm := resolveCm cm }
  | _, _, _, _ => none

/-- A numpy ndarray as far as create_graph observes one: its shape and flat
contents. -/
structure NpArray where
  shape : List ℕ
  data : List ℚ
deriving DecidableEq

/-- `arr.size`: the product of the shape. -/
def NpArray.size (a : NpArray) : ℕ := a.shape.prod

/-- Python truthiness of a numpy array (`if cmap:`): a one-element array is
truthy iff its element is nonzero, an empty array is falsy (legacy numpy
behaviour), and any array with two or more elements raises
`ValueError: The truth value of an array with more than one element is
ambiguous.` — modelled as `none`. -/
def npTruth (a : NpArray) : Option Bool :=
  if a.size = 1 then some (decide (a.data.getD 0 0 ≠ 0))
  else if a.size = 0 then some false
  else none

/-- A node of the parsed pydotplus graph: its label (if any) and its fill
color attribute. -/
structure GNode where
  label : Option String
  fillcolor : Option String
deriving DecidableEq

/-- Does the text start with the pattern? (first argument is the pattern). -/
def startsWithC : List Char → List Char → Bool
  | [], _ => true
  | _ :: _, [] => false
  | p :: ps, c :: cs => p == c && startsWithC ps cs

/-- Leftmost non-overlapping splitting of a character list at a non-empty
separator, as Python `str.split(sep)`: `skip` counts characters of a matched
separator still to be consumed, `acc` holds the current piece reversed. -/
def splitGo (sep : List Char) : List Char → ℕ → List Char → List (List Char)
  | [], _, acc => [acc.reverse]
  | _ :: rest, skip + 1, acc => splitGo sep rest skip acc
  | c :: rest, 0, acc =>
    if startsWithC sep (c :: rest) then
      acc.reverse :: splitGo sep rest (sep.length - 1) []
    else splitGo sep rest 0 (c :: acc)

/-- Python `s.split(sep)`; an empty separator raises ValueError. -/
def pySplit (s sep : List Char) : Option (List (List Char)) :=
  match sep with
  | [] => none
  | _ :: _ => some (splitGo sep s 0 [])

/-- Accumulate the value of a run of decimal digits. -/
def digitsVal : List Char → ℕ → Option ℕ
  | [], acc => some acc
  | c :: rest, acc =>
    if c.isDigit then digitsVal rest (acc * 10 + (c.toNat - 48)) else none

/-- The whitespace stripped by Python `int(str)`. -/
def isSpaceC (c : Char) : Bool :=
  c == ' ' || c == '\t' || c == '\n' || c == '\r'

/-- Python `int(text)`: strip whitespace, then an optional sign followed by
at least one digit; anything else raises ValueError (`none`). -/
def pyInt (l : List Char) : Option ℤ :=
  match ((l.dropWhile isSpaceC).reverse.dropWhile isSpaceC).reverse with
  | '-' :: ds =>
    if ds = [] then none else (digitsVal ds 0).map (fun n => -(n : ℤ))
  | '+' :: ds =>
    if ds = [] then none else (digitsVal ds 0).map (fun n => (n : ℤ))
  | ds =>
    if ds = [] then none else (digitsVal ds 0).map (fun n => (n : ℤ))

/-- Left-pad with zeros to the given width. -/
def padZeros (s : List Char) (w : ℕ) : List Char :=
  List.replicate (w - s.length) '0' ++ s

/-- Python `'{:02x}'.format(i)`: lowercase hex, total width at least 2
(the sign counts towards the width). -/
def format02x (i : ℤ) : String :=
  if i < 0 then String.mk ('-' :: padZeros (Nat.toDigits 16 i.natAbs) 1)
  else String.mk (padZeros (Nat.toDigits 16 i.natAbs) 2)

/-- `'#{:02x}{:02x}{:02x}'.format(r, g, b)`. -/
def hexColor (r g b : ℤ) : String :=
  "#" ++ format02x r ++ format02x g ++ format02x b

/-- `int(np.ceil(255 * x))` on the exact rational channel value. -/
def ceil255 (x : ℚ) : ℤ := ⌈(255 : ℚ) * x⌉

/-- The body of the node-coloring loop of create_graph.  A node whose label
is unset (None) or empty is skipped.  Otherwise the per-class counts are the
integers parsed from the text between the first 'value = [' and the next ']'
(`split('value = [')[1].split(']')[0].split(',')`); Python raises — modelled
as `none` — when the label has no 'value = [' section (IndexError), when a
piece is not an int (ValueError), when there is no second count (IndexError)
or when the counts sum to zero (ZeroDivisionError).  The fill color becomes
the hex RGB of the fixed `matplotlib.cm.coolwarm` lookup — an external fixed
table, passed in as `cw` — of the second-class proportion, with
`int(np.ceil(255*x))` per channel (the alpha channel is computed and then
ignored by the format string). -/
def colorNode (cw : ℚ → ℚ × ℚ × ℚ × ℚ) (node : GNode) : Option GNode :=
  match node.label with
  | none => some node
  | some lbl =>
    if lbl.data = [] then some node
    else
      match pySplit lbl.data ("value = [".data) with
      | none => none
      | some parts =>
        match parts.get? 1 with
        | none => none
        | some p1 =>
          match pySplit p1 ("]".data) with
          | none => none
          | some seg =>
            match pySplit (seg.getD 0 []) (",".data) with
            | none => none
            | some pieces =>
              match pieces.mapM pyInt with
              | none => none
              | some num_samples =>
                match num_samples.get? 1 with
                | none => none
                | some c1 =>
                  let s : ℤ := num_samples.foldl (fun x y => x + y) 0
                  if s = 0 then none
                  else
                    let cm_value := cw ((c1 : ℚ) / (s : ℚ))
                    let rr := ceil255 cm_value.1
                    let gg := ceil255 cm_value.2.1
                    let bb := ceil255 cm_value.2.2.1
                    let _aa := ceil255 cm_value.2.2.2
                    some { node with fillcolor := some (hexColor rr gg bb) }

/-- The coloring stage of create_graph from src/datathon.py, on the graph
parsed from the exporter's dot output (`tree.export_graphviz`,
`graph_from_dot_data` and the final `Image(graph.create_png())` are external
calls that do not change node attributes).  `cmap = None` skips the block; a
supplied array goes through Python truthiness (`if cmap:`), which raises for
an array of more than one element; in the truthy case `cmap.shape[1]` is read
(IndexError — `none` — when the array has fewer than two dimensions) and the
transparency-removal slice `cmap[:, 0:2]` is bound to the local name but
never read again, so the node colors are computed solely from the fixed
coolwarm table `cw`. -/
def create_graph (cw : ℚ → ℚ × ℚ × ℚ × ℚ) (graph : List GNode)
    (cmap : Option NpArray) : Option (List GNode) :=
  match cmap with
  | none => some graph
  | some a =>
    match npTruth a with
    | none => none
    | some false => some graph
    | some true =>
      match a.shape.get? 1 with
      | none => none
      | some _ => graph.mapM (colorNode cw)

/-! ## Claim C8 -/

/-- The docstring's own example argument:
`matplotlib.cm.coolwarm(np.linspace(0.0, 1.0, 256))`, a 256×4 RGBA sample
array (its numeric contents are immaterial for the result). -/
def cmapExample : NpArray :=
  { shape := [256, 4], data := List.replicate 1024 (1/2) }

/-- A stand-in coolwarm table for concrete evaluation: RGB channels equal to
the looked-up proportion, alpha 1. -/
def cwGray : ℚ → ℚ × ℚ × ℚ × ℚ := fun v => (v, v, v, 1)


/-! ## Lemmas and claim theorems -/

lemma cdictAux_stopItems (c : Color) (stops : List (ℚ × Color)) :
    cdictAux (rgbOf c) (stopItems stops ++ [Item.flt 1, Item.rgb none none none]) =
      some ⟨chanEntries Color.r c stops, chanEntries Color.g c stops,
            chanEntries Color.b c stops⟩ := by
  induction stops generalizing c with
  | nil => rfl
  | cons pc rest ih =>
    obtain ⟨p, c2⟩ := pc
    have h := ih c2
    simp only [rgbOf] at h
    simp [stopItems, cdictAux, rgbOf, chanEntries, h]

/-- Characterisation of `make_colormap` on a valid alternating sequence:
one row at position 0 (left value `None`), one row per explicit stop carrying
the neighbouring colors, and one row at position 1 (right value `None`). -/
lemma make_colormap_mkSeq (c0 : Color) (stops : List (ℚ × Color)) :
    make_colormap (mkSeq c0 stops) =
      some ⟨(0, none, some c0.r) :: chanEntries Color.r c0 stops,
            (0, none, some c0.g) :: chanEntries Color.g c0 stops,
            (0, none, some c0.b) :: chanEntries Color.b c0 stops⟩ := by
  unfold make_colormap mkSeq
  have h := cdictAux_stopItems c0 stops
  simp only [rgbOf] at h
  simp [cdictAux, rgbOf, h]

/-! ### Facts extracted from validity -/
lemma validStops_mem (stops : List (ℚ × Color)) (h : validStops stops) :
    ∀ q ∈ stops.map Prod.fst, 0 < q ∧ q < 1 := by
  intro q hq
  unfold validStops at h
  rw [List.cons_append, List.pairwise_cons] at h
  refine ⟨h.1 q (List.mem_append_left _ hq), ?_⟩
  exact (List.pairwise_append.mp h.2).2.2 q hq 1 (by simp)

lemma validStops_split (pre post : List (ℚ × Color)) (p : ℚ) (cA : Color)
    (h : validStops (pre ++ (p, cA) :: post)) :
    (∀ q ∈ pre.map Prod.fst, q < p) ∧ 0 < p ∧ p < nextPos post := by
  unfold validStops at h
  simp only [List.map_append, List.map_cons, List.cons_append, List.append_assoc] at h
  rw [List.pairwise_cons] at h
  obtain ⟨h0, h1⟩ := h
  obtain ⟨_, hpB, hcross⟩ := List.pairwise_append.mp h1
  refine ⟨fun q hq => hcross q hq p (by simp), ?_, ?_⟩
  · exact h0 p (List.mem_append_right _ (by simp))
  · rw [List.pairwise_cons] at hpB
    cases post with
    | nil => exact hpB.1 1 (by simp [nextPos])
    | cons qc t => exact hpB.1 (qc.1) (by simp [nextPos])

/-! ### Evaluation lemmas for valid sequences -/
lemma segEval_zero (f : Color → ℚ) (c0 : Color) (stops : List (ℚ × Color))
    (h : 0 < nextPos stops) :
    segEval ((0, none, some (f c0)) :: chanEntries f c0 stops) 0 = some (f c0) := by
  cases stops with
  | nil => simp [chanEntries, segEval]
  | cons pc rest =>
    obtain ⟨p, c1⟩ := pc
    simp only [nextPos] at h
    simp [chanEntries, segEval, h]

lemma segEval_one (f : Color → ℚ) (stops : List (ℚ × Color)) :
    ∀ (c : Color) (x1 : ℚ) (a0 a1 : Option ℚ),
      (∀ q ∈ stops.map Prod.fst, q ≤ 1) →
      segEval ((x1, a0, a1) :: chanEntries f c stops) 1 = some (f (lastColor c stops)) := by
  induction stops with
  | nil =>
    intro c x1 a0 a1 _
    simp [chanEntries, segEval, lastColor]
  | cons pc rest ih =>
    obtain ⟨p, c2⟩ := pc
    intro c x1 a0 a1 hle
    have hp : ¬ (1 : ℚ) < p := not_lt.mpr (hle p (by simp))
    have hrest : ∀ q ∈ rest.map Prod.fst, q ≤ 1 := fun q hq => hle q (by simp [hq])
    simp [chanEntries, segEval, hp, lastColor,
      ih c2 p (some (f c)) (some (f c2)) hrest]

lemma segEval_stop (f : Color → ℚ) (p : ℚ) (cA : Color) (pre : List (ℚ × Color)) :
    ∀ (c : Color) (x1 : ℚ) (a0 a1 : Option ℚ) (post : List (ℚ × Color)),
      (∀ q ∈ pre.map Prod.fst, q < p) → p < nextPos post →
      segEval ((x1, a0, a1) :: chanEntries f c (pre ++ (p, cA) :: post)) p = some (f cA) := by
  induction pre with
  | nil =>
    intro c x1 a0 a1 post _ hpost
    cases post with
    | nil =>
      simp only [nextPos] at hpost
      simp [chanEntries, segEval, hpost]
    | cons qc t =>
      obtain ⟨q, c3⟩ := qc
      simp only [nextPos] at hpost
      simp [chanEntries, segEval, hpost]
  | cons qc pre' ih =>
    obtain ⟨q, cq⟩ := qc
    intro c x1 a0 a1 post hpre hpost
    have hq : ¬ p < q := not_lt.mpr (le_of_lt (hpre q (by simp)))
    have hpre' : ∀ r ∈ pre'.map Prod.fst, r < p := fun r hr => hpre r (by simp [hr])
    simp [chanEntries, segEval, hq,
      ih cq q (some (f c)) (some (f cq)) post hpre' hpost]

lemma segEvalLeft_stop (f : Color → ℚ) (p : ℚ) (cA : Color) (pre : List (ℚ × Color)) :
    ∀ (c : Color) (x1 : ℚ) (a0 : Option ℚ) (v1 : ℚ) (post : List (ℚ × Color)),
      (∀ q ∈ pre.map Prod.fst, q < p) → x1 < p →
      segEvalLeft ((x1, a0, some v1) :: chanEntries f c (pre ++ (p, cA) :: post)) p =
        some (f (lastColor c pre)) := by
  induction pre with
  | nil =>
    intro c x1 a0 v1 post _ hx1
    have hne : p - x1 ≠ 0 := sub_ne_zero.mpr (ne_of_gt hx1)
    have harith : v1 + (f c - v1) * (p - x1) / (p - x1) = f c := by
      rw [mul_div_assoc, div_self hne, mul_one]; ring
    simp [chanEntries, segEvalLeft, lastColor, harith]
  | cons qc pre' ih =>
    obtain ⟨q, cq⟩ := qc
    intro c x1 a0 v1 post hpre hx1
    have hq : q < p := hpre q (by simp)
    have hnle : ¬ p ≤ q := not_le.mpr hq
    have hpre' : ∀ r ∈ pre'.map Prod.fst, r < p := fun r hr => hpre r (by simp [hr])
    simp [chanEntries, segEvalLeft, hnle, lastColor,
      ih cq q (some (f c)) (f cq) post hpre' hq]

/-! ## Claim C1 -/

/-- C1: For every valid ColorStop sequence (scalar positions strictly
increasing in (0,1), each scalar flanked by RGB triples), the colormap built
by `make_colormap` evaluates at 0.0 to the color of the first explicit stop
(the triple opening the sequence, inherited by the synthetic leading stop)
and at 1.0 to the color of the last explicit stop (the closing triple,
inherited by the synthetic trailing stop). -/
theorem C1_colormap_endpoints (c0 : Color) (stops : List (ℚ × Color))
    (h : validStops stops) :
    evalCM (make_colormap (mkSeq c0 stops)) 0 = some c0 ∧
    evalCM (make_colormap (mkSeq c0 stops)) 1 = some (lastColor c0 stops) := by
  have hch := make_colormap_mkSeq c0 stops
  have hnext : 0 < nextPos stops := by
    cases stops with
    | nil => norm_num [nextPos]
    | cons pc rest =>
      obtain ⟨p, c1⟩ := pc
      simpa [nextPos] using (validStops_mem _ h p (by simp)).1
  have hle : ∀ q ∈ stops.map Prod.fst, q ≤ 1 :=
    fun q hq => le_of_lt (validStops_mem _ h q hq).2
  constructor
  · simp [evalCM, hch, cmapEval,
      segEval_zero Color.r c0 stops hnext,
      segEval_zero Color.g c0 stops hnext,
      segEval_zero Color.b c0 stops hnext]
  · simp [evalCM, hch, cmapEval,
      segEval_one Color.r stops c0 0 none (some c0.r) hle,
      segEval_one Color.g stops c0 0 none (some c0.g) hle,
      segEval_one Color.b stops c0 0 none (some c0.b) hle]

/-- Witness for C1 on the concrete valid sequence (1,0,0), 1/2, (0,0,1). -/
theorem C1_colormap_endpoints_witness :
    validStops [(mkRat 1 2, Color.mk 0 0 1)] ∧
    evalCM (make_colormap (mkSeq (Color.mk 1 0 0) [(mkRat 1 2, Color.mk 0 0 1)])) 0 =
      some (Color.mk 1 0 0) ∧
    evalCM (make_colormap (mkSeq (Color.mk 1 0 0) [(mkRat 1 2, Color.mk 0 0 1)])) 1 =
      some (Color.mk 0 0 1) := by
  refine ⟨by decide, ?_, ?_⟩
  · exact (C1_colormap_endpoints (Color.mk 1 0 0) [(mkRat 1 2, Color.mk 0 0 1)]
      (by decide)).1
  · simpa [lastColor] using
      (C1_colormap_endpoints (Color.mk 1 0 0) [(mkRat 1 2, Color.mk 0 0 1)]
        (by decide)).2

/-! ## Claim C2 -/

/-- At an interior stop of a valid sequence the left approach yields the
triple recorded before the scalar and the right approach the triple recorded
after it. -/
lemma interior_stop_values (c0 : Color) (pre post : List (ℚ × Color))
    (p : ℚ) (cA : Color) (h : validStops (pre ++ (p, cA) :: post)) :
    evalCMLeft (make_colormap (mkSeq c0 (pre ++ (p, cA) :: post))) p =
      some (lastColor c0 pre) ∧
    evalCM (make_colormap (mkSeq c0 (pre ++ (p, cA) :: post))) p = some cA := by
  obtain ⟨hpre, hp0, hpost⟩ := validStops_split pre post p cA h
  have hch := make_colormap_mkSeq c0 (pre ++ (p, cA) :: post)
  constructor
  · simp [evalCMLeft, hch, cmapEvalLeft,
      segEvalLeft_stop Color.r p cA pre c0 0 none c0.r post hpre hp0,
      segEvalLeft_stop Color.g p cA pre c0 0 none c0.g post hpre hp0,
      segEvalLeft_stop Color.b p cA pre c0 0 none c0.b post hpre hp0]
  · simp [evalCM, hch, cmapEval,
      segEval_stop Color.r p cA pre c0 0 none (some c0.r) post hpre hpost,
      segEval_stop Color.g p cA pre c0 0 none (some c0.g) post hpre hpost,
      segEval_stop Color.b p cA pre c0 0 none (some c0.b) post hpre hpost]

/-- C2 counterexample: the valid sequence (1,0,0), 1/2, (0,0,1) produces a
colormap that is NOT continuous at its interior stop 1/2 — the value
approached from the left differs from the value approached from the right —
refuting the claim that continuity holds at every interior stop of every
valid sequence. -/
theorem C2_counterexample :
    validStops [(mkRat 1 2, Color.mk 0 0 1)] ∧
    evalCMLeft (make_colormap (mkSeq (Color.mk 1 0 0)
        [(mkRat 1 2, Color.mk 0 0 1)])) (mkRat 1 2) ≠
      evalCM (make_colormap (mkSeq (Color.mk 1 0 0)
        [(mkRat 1 2, Color.mk 0 0 1)])) (mkRat 1 2) := by
  refine ⟨by decide, ?_⟩
  obtain ⟨hL, hR⟩ := interior_stop_values (Color.mk 1 0 0) [] []
    (mkRat 1 2) (Color.mk 0 0 1) (by decide)
  simp only [List.nil_append] at hL hR
  rw [hL, hR]
  simp [lastColor]

/-- C2 (amended): at each interior stop of a valid sequence, the value
approached from the left equals the triple recorded immediately before the
scalar and the value approached from the right equals the triple recorded
immediately after it, in every channel; hence the colormap is continuous at
that stop precisely when those two triples coincide. -/
theorem C2_amended_interior_stops (c0 : Color) (pre post : List (ℚ × Color))
    (p : ℚ) (cA : Color) (h : validStops (pre ++ (p, cA) :: post)) :
    evalCMLeft (make_colormap (mkSeq c0 (pre ++ (p, cA) :: post))) p =
      some (lastColor c0 pre) ∧
    evalCM (make_colormap (mkSeq c0 (pre ++ (p, cA) :: post))) p = some cA ∧
    (evalCMLeft (make_colormap (mkSeq c0 (pre ++ (p, cA) :: post))) p =
       evalCM (make_colormap (mkSeq c0 (pre ++ (p, cA) :: post))) p ↔
      lastColor c0 pre = cA) := by
  obtain ⟨hL, hR⟩ := interior_stop_values c0 pre post p cA h
  refine ⟨hL, hR, ?_⟩
  rw [hL, hR]
  exact ⟨fun hsome => Option.some.inj hsome, fun he => by rw [he]⟩

/-- Witness for the amended C2: with the same triple on both sides of the
stop the colormap is continuous there. -/
theorem C2_amended_interior_stops_witness :
    validStops [(mkRat 1 2, Color.mk 1 0 0)] ∧
    evalCMLeft (make_colormap (mkSeq (Color.mk 1 0 0)
        [(mkRat 1 2, Color.mk 1 0 0)])) (mkRat 1 2) =
      evalCM (make_colormap (mkSeq (Color.mk 1 0 0)
        [(mkRat 1 2, Color.mk 1 0 0)])) (mkRat 1 2) := by
  refine ⟨by decide, ?_⟩
  exact (C2_amended_interior_stops (Color.mk 1 0 0) [] [] (mkRat 1 2)
    (Color.mk 1 0 0) (by decide)).2.2.mpr rfl

/-! ## Claim C10: inputs consisting only of RGB triples -/

lemma cdictAux_cons_rgb (prev : Item) (r g b : Option ℚ) (rest : List Item) :
    cdictAux prev (Item.rgb r g b :: rest) = cdictAux (Item.rgb r g b) rest := rfl

/-- The first processed float is the prepended 0.0, whose neighbours are the
leading sentinel triple and the first element of the user sequence. -/
lemma make_colormap_cons_rgb (c0 : Color) (l : List Item) :
    make_colormap (rgbOf c0 :: l) =
      (cdictAux (rgbOf c0) (l ++ [Item.flt 1, Item.rgb none none none])).map
        (fun cd => ⟨(0, none, some c0.r) :: cd.red, (0, none, some c0.g) :: cd.green,
                    (0, none, some c0.b) :: cd.blue⟩) := rfl

lemma cdictAux_colorItems (l : List Color) : ∀ c : Color,
    cdictAux (rgbOf c) (colorItems l ++ [Item.flt 1, Item.rgb none none none]) =
      some ⟨[(1, some ((l.getLastD c).r), none)],
            [(1, some ((l.getLastD c).g), none)],
            [(1, some ((l.getLastD c).b), none)]⟩ := by
  induction l with
  | nil => intro c; rfl
  | cons c2 rest ih =>
    intro c
    rw [show colorItems (c2 :: rest) = rgbOf c2 :: colorItems rest from rfl,
        List.cons_append,
        show rgbOf c2 = Item.rgb (some c2.r) (some c2.g) (some c2.b) from rfl,
        cdictAux_cons_rgb, List.getLastD_cons]
    exact ih c2

/-- On a sequence of triples only, the two floats 0.0 and 1.0 added by
`make_colormap` are the only floats, so the cdict has exactly the two rows
determined by the first and the last triple. -/
lemma make_colormap_onlyTriples (c0 : Color) (rest : List Color) :
    make_colormap (colorItems (c0 :: rest)) =
      some ⟨[(0, none, some c0.r), (1, some ((rest.getLastD c0).r), none)],
            [(0, none, some c0.g), (1, some ((rest.getLastD c0).g), none)],
            [(0, none, some c0.b), (1, some ((rest.getLastD c0).b), none)]⟩ := by
  rw [show colorItems (c0 :: rest) = rgbOf c0 :: colorItems rest from rfl,
      make_colormap_cons_rgb, cdictAux_colorItems rest c0]
  rfl

/-- C10: a `make_colormap` input of RGB triples only (no scalar positions) is
determined solely by its first and last triple — the cdict is the two-row
gradient from the first triple at 0.0 to the last at 1.0, interior triples
are ignored (two such inputs agreeing on first and last triples give equal
colormaps), and evaluation is the straight line between the two colors. -/
theorem C10_only_triples (c0 : Color) (rest : List Color) :
    (make_colormap (colorItems (c0 :: rest)) =
       some ⟨[(0, none, some c0.r), (1, some ((rest.getLastD c0).r), none)],
             [(0, none, some c0.g), (1, some ((rest.getLastD c0).g), none)],
             [(0, none, some c0.b), (1, some ((rest.getLastD c0).b), none)]⟩) ∧
    (∀ rest2 : List Color, rest.getLastD c0 = rest2.getLastD c0 →
       make_colormap (colorItems (c0 :: rest)) =
         make_colormap (colorItems (c0 :: rest2))) ∧
    (∀ t : ℚ, t < 1 →
       evalCM (make_colormap (colorItems (c0 :: rest))) t =
         some ⟨c0.r + ((rest.getLastD c0).r - c0.r) * t,
               c0.g + ((rest.getLastD c0).g - c0.g) * t,
               c0.b + ((rest.getLastD c0).b - c0.b) * t⟩) ∧
    evalCM (make_colormap (colorItems (c0 :: rest))) 1 = some (rest.getLastD c0) := by
  refine ⟨make_colormap_onlyTriples c0 rest, ?_, ?_, ?_⟩
  · intro rest2 hlast
    rw [make_colormap_onlyTriples c0 rest, make_colormap_onlyTriples c0 rest2, hlast]
  · intro t ht
    rw [make_colormap_onlyTriples c0 rest]
    have harith : ∀ v0 v1 : ℚ, v1 + (v0 - v1) * (t - 0) / (1 - 0) = v1 + (v0 - v1) * t := by
      intro v0 v1; norm_num
    simp [evalCM, cmapEval, segEval, ht, harith]
  · rw [make_colormap_onlyTriples c0 rest]
    simp [evalCM, cmapEval, segEval]

/-- Witness for C10: red, green, blue triples — the interior green triple is
ignored, the colormap equals the one from red, blue alone, and evaluation at
1/4 lies on the red-to-blue line. -/
theorem C10_only_triples_witness :
    ([Color.mk 0 1 0, Color.mk 0 0 1].getLastD (Color.mk 1 0 0) =
       [Color.mk 0 0 1].getLastD (Color.mk 1 0 0)) ∧
    (make_colormap (colorItems [Color.mk 1 0 0, Color.mk 0 1 0, Color.mk 0 0 1]) =
       make_colormap (colorItems [Color.mk 1 0 0, Color.mk 0 0 1])) ∧
    (mkRat 1 4 < 1) ∧
    evalCM (make_colormap (colorItems [Color.mk 1 0 0, Color.mk 0 1 0, Color.mk 0 0 1]))
        (mkRat 1 4) =
      some ⟨1 + (0 - 1) * mkRat 1 4, 0 + (0 - 0) * mkRat 1 4, 0 + (1 - 0) * mkRat 1 4⟩ := by
  refine ⟨by decide, ?_, by decide, ?_⟩
  · exact (C10_only_triples (Color.mk 1 0 0) [Color.mk 0 1 0, Color.mk 0 0 1]).2.1
      [Color.mk 0 0 1] (by decide)
  · exact (C10_only_triples (Color.mk 1 0 0) [Color.mk 0 1 0, Color.mk 0 0 1]).2.2.1
      (mkRat 1 4) (by decide)

/-! ## Decision trees and prune (claims C3, C4) -/

lemma foldl_range_succ {α : Type} (f : α → ℕ → α) (a : α) (n : ℕ) :
    (List.range (n + 1)).foldl f a = f ((List.range n).foldl f a) n := by
  rw [List.range_succ, List.foldl_append]
  rfl

lemma pruneVisit_samples (m : ℤ) (tr : TreeObj) (i : ℕ) :
    (pruneVisit m tr i).n_node_samples = tr.n_node_samples := by
  unfold pruneVisit; split <;> rfl

lemma pruneVisit_len (m : ℤ) (tr : TreeObj) (i : ℕ) :
    (pruneVisit m tr i).children_left.length = tr.children_left.length ∧
    (pruneVisit m tr i).children_right.length = tr.children_right.length := by
  unfold pruneVisit; split <;> simp

lemma pruneFold_samples (m : ℤ) (t : TreeObj) :
    ∀ n : ℕ, ((List.range n).foldl (pruneVisit m) t).n_node_samples = t.n_node_samples := by
  intro n
  induction n with
  | zero => rfl
  | succ k ih => rw [foldl_range_succ, pruneVisit_samples, ih]

lemma pruneFold_len (m : ℤ) (t : TreeObj) :
    ∀ n : ℕ, ((List.range n).foldl (pruneVisit m) t).children_left.length =
        t.children_left.length ∧
      ((List.range n).foldl (pruneVisit m) t).children_right.length =
        t.children_right.length := by
  intro n
  induction n with
  | zero => exact ⟨rfl, rfl⟩
  | succ k ih =>
    rw [foldl_range_succ]
    rw [(pruneVisit_len m _ k).1, (pruneVisit_len m _ k).2]
    exact ih

/-- Pointwise description of the pruning loop: position `j` of the children
arrays is set to −1 exactly when `j` was visited and its sample count is
small; otherwise it is untouched.  (`set` out of range is a no-op on both
sides of the equation.) -/
lemma pruneFold_get (m : ℤ) (t : TreeObj) (j : ℕ) :
    ∀ n : ℕ,
      (((List.range n).foldl (pruneVisit m) t).children_left[j]? =
        if j < n ∧ t.n_node_samples.getD j 0 ≤ m
        then (t.children_left.set j (-1))[j]?
        else t.children_left[j]?) ∧
      (((List.range n).foldl (pruneVisit m) t).children_right[j]? =
        if j < n ∧ t.n_node_samples.getD j 0 ≤ m
        then (t.children_right.set j (-1))[j]?
        else t.children_right[j]?) := by
  intro n
  induction n with
  | zero => simp
  | succ k ih =>
    rw [foldl_range_succ, pruneVisit, pruneFold_samples]
    by_cases hcond : t.n_node_samples.getD k 0 ≤ m
    · rw [if_pos hcond]
      rcases eq_or_ne j k with rfl | hne
      · constructor
        · rw [if_pos ⟨Nat.lt_succ_self j, hcond⟩]
          simp [List.getElem?_set, (pruneFold_len m t j).1]
        · rw [if_pos ⟨Nat.lt_succ_self j, hcond⟩]
          simp [List.getElem?_set, (pruneFold_len m t j).2]
      · have hkj : k ≠ j := hne.symm
        constructor
        · show (((List.range k).foldl (pruneVisit m) t).children_left.set k (-1))[j]? = _
          rw [List.getElem?_set_ne hkj, ih.1]
          by_cases hjc : j < k ∧ t.n_node_samples.getD j 0 ≤ m
          · rw [if_pos hjc, if_pos ⟨Nat.lt_succ_of_lt hjc.1, hjc.2⟩]
          · have h1 : ¬ (j < k + 1 ∧ t.n_node_samples.getD j 0 ≤ m) := by
              rintro ⟨h2, h3⟩
              exact hjc ⟨by omega, h3⟩
            rw [if_neg hjc, if_neg h1]
        · show (((List.range k).foldl (pruneVisit m) t).children_right.set k (-1))[j]? = _
          rw [List.getElem?_set_ne hkj, ih.2]
          by_cases hjc : j < k ∧ t.n_node_samples.getD j 0 ≤ m
          · rw [if_pos hjc, if_pos ⟨Nat.lt_succ_of_lt hjc.1, hjc.2⟩]
          · have h1 : ¬ (j < k + 1 ∧ t.n_node_samples.getD j 0 ≤ m) := by
              rintro ⟨h2, h3⟩
              exact hjc ⟨by omega, h3⟩
            rw [if_neg hjc, if_neg h1]
    · rw [if_neg hcond]
      rcases eq_or_ne j k with rfl | hne
      · constructor
        · rw [ih.1, if_neg (fun h => hcond h.2), if_neg (fun h => hcond h.2)]
        · rw [ih.2, if_neg (fun h => hcond h.2), if_neg (fun h => hcond h.2)]
      · constructor
        · rw [ih.1]
          by_cases hjc : j < k ∧ t.n_node_samples.getD j 0 ≤ m
          · rw [if_pos hjc, if_pos ⟨Nat.lt_succ_of_lt hjc.1, hjc.2⟩]
          · have h1 : ¬ (j < k + 1 ∧ t.n_node_samples.getD j 0 ≤ m) := by
              rintro ⟨h2, h3⟩
              exact hjc ⟨by omega, h3⟩
            rw [if_neg hjc, if_neg h1]
        · rw [ih.2]
          by_cases hjc : j < k ∧ t.n_node_samples.getD j 0 ≤ m
          · rw [if_pos hjc, if_pos ⟨Nat.lt_succ_of_lt hjc.1, hjc.2⟩]
          · have h1 : ¬ (j < k + 1 ∧ t.n_node_samples.getD j 0 ≤ m) := by
              rintro ⟨h2, h3⟩
              exact hjc ⟨by omega, h3⟩
            rw [if_neg hjc, if_neg h1]

/-! ## Claim C3 -/

/-- C3: when the requested threshold is not larger than the stored
`min_samples_leaf`, `prune` performs no mutation at all and only emits the
informational notice; consequently pruning is monotonic — after any call, a
further call with a smaller (or equal) threshold is a guaranteed no-op with
the notice, so children set to −1 earlier are never restored. -/
theorem C3_prune_noop (dt : DecisionTree) (m m1 m2 : ℤ) :
    (m ≤ dt.min_samples_leaf → prune dt m = (dt, some pruneNotice)) ∧
    (m2 ≤ m1 → prune (prune dt m1).1 m2 = ((prune dt m1).1, some pruneNotice)) := by
  constructor
  · intro hle
    simp [prune, ge_iff_le, hle]
  · intro h21
    have hstored : m2 ≤ (prune dt m1).1.min_samples_leaf := by
      by_cases hc : dt.min_samples_leaf ≥ m1
      · have h1 : (prune dt m1).1 = dt := by simp [prune, hc]
        rw [h1]
        exact le_trans h21 hc
      · have h1 : (prune dt m1).1.min_samples_leaf = m1 := by simp [prune, hc]
        rw [h1]
        exact h21
    generalize hX : (prune dt m1).1 = X at hstored ⊢
    simp [prune, ge_iff_le, hstored]

/-- Witness for C3: a request at the stored threshold is a notice-only no-op,
and after pruning at 5 a request at 3 is again a notice-only no-op. -/
theorem C3_prune_noop_witness :
    prune wtree 1 = (wtree, some pruneNotice) ∧
    prune (prune wtree 5).1 3 = ((prune wtree 5).1, some pruneNotice) := by
  exact ⟨(C3_prune_noop wtree 1 5 3).1 (by decide),
         (C3_prune_noop wtree 1 5 3).2 (by decide)⟩

/-! ## Claim C4 -/

/-- C4: when the stored threshold is strictly smaller than the requested one,
`prune` emits no notice, stores the requested threshold, and sets both child
indices to −1 for exactly the nodes whose sample count is ≤ the requested
threshold, leaving every other node's child indices unchanged; in particular
if no node is small, both children arrays are completely unchanged. -/
theorem C4_prune_mutation (dt : DecisionTree) (m : ℤ)
    (hm : dt.min_samples_leaf < m)
    (hl : dt.tree_.children_left.length = dt.tree_.node_count)
    (hr : dt.tree_.children_right.length = dt.tree_.node_count) :
    (prune dt m).2 = none ∧
    (prune dt m).1.min_samples_leaf = m ∧
    (∀ j, j < dt.tree_.node_count → dt.tree_.n_node_samples.getD j 0 ≤ m →
      (prune dt m).1.tree_.children_left[j]? = some (-1) ∧
      (prune dt m).1.tree_.children_right[j]? = some (-1)) ∧
    (∀ j, ¬ dt.tree_.n_node_samples.getD j 0 ≤ m →
      (prune dt m).1.tree_.children_left[j]? = dt.tree_.children_left[j]? ∧
      (prune dt m).1.tree_.children_right[j]? = dt.tree_.children_right[j]?) ∧
    ((∀ j, j < dt.tree_.node_count → ¬ dt.tree_.n_node_samples.getD j 0 ≤ m) →
      (prune dt m).1.tree_.children_left = dt.tree_.children_left ∧
      (prune dt m).1.tree_.children_right = dt.tree_.children_right) := by
  have hge : ¬ dt.min_samples_leaf ≥ m := not_le.mpr hm
  have hp1 : (prune dt m).1 =
      { min_samples_leaf := m, tree_ := pruneLoop m dt.tree_ } := by
    simp [prune, hge]
  have hp2 : (prune dt m).2 = none := by simp [prune, hge]
  refine ⟨hp2, by rw [hp1], ?_, ?_, ?_⟩
  · intro j hj hsmall
    rw [hp1]
    have hg := pruneFold_get m dt.tree_ j dt.tree_.node_count
    constructor
    · rw [show ({ min_samples_leaf := m, tree_ := pruneLoop m dt.tree_ } :
            DecisionTree).tree_ = pruneLoop m dt.tree_ from rfl,
        pruneLoop, hg.1, if_pos ⟨hj, hsmall⟩]
      exact List.getElem?_set_eq_of_lt (-1) (by rw [hl]; exact hj)
    · rw [show ({ min_samples_leaf := m, tree_ := pruneLoop m dt.tree_ } :
            DecisionTree).tree_ = pruneLoop m dt.tree_ from rfl,
        pruneLoop, hg.2, if_pos ⟨hj, hsmall⟩]
      exact List.getElem?_set_eq_of_lt (-1) (by rw [hr]; exact hj)
  · intro j hbig
    rw [hp1]
    have hg := pruneFold_get m dt.tree_ j dt.tree_.node_count
    constructor
    · rw [show ({ min_samples_leaf := m, tree_ := pruneLoop m dt.tree_ } :
            DecisionTree).tree_ = pruneLoop m dt.tree_ from rfl,
        pruneLoop, hg.1, if_neg (fun h => hbig h.2)]
    · rw [show ({ min_samples_leaf := m, tree_ := pruneLoop m dt.tree_ } :
            DecisionTree).tree_ = pruneLoop m dt.tree_ from rfl,
        pruneLoop, hg.2, if_neg (fun h => hbig h.2)]
  · intro hnone
    rw [hp1]
    constructor
    · refine List.ext_getElem? (fun j => ?_)
      have hg := (pruneFold_get m dt.tree_ j dt.tree_.node_count).1
      rw [show ({ min_samples_leaf := m, tree_ := pruneLoop m dt.tree_ } :
            DecisionTree).tree_ = pruneLoop m dt.tree_ from rfl,
        pruneLoop, hg, if_neg (fun h => hnone j h.1 h.2)]
    · refine List.ext_getElem? (fun j => ?_)
      have hg := (pruneFold_get m dt.tree_ j dt.tree_.node_count).2
      rw [show ({ min_samples_leaf := m, tree_ := pruneLoop m dt.tree_ } :
            DecisionTree).tree_ = pruneLoop m dt.tree_ from rfl,
        pruneLoop, hg, if_neg (fun h => hnone j h.1 h.2)]

/-- Witness for C4 on the concrete tree: pruning at 5 nulls the children of
node 1 (2 samples ≤ 5) and leaves nodes 0 and 2 (10 and 8 samples) alone. -/
theorem C4_prune_mutation_witness :
    (prune wtree 5).2 = none ∧
    (prune wtree 5).1.min_samples_leaf = 5 ∧
    (prune wtree 5).1.tree_.children_left[1]? = some (-1) ∧
    (prune wtree 5).1.tree_.children_right[1]? = some (-1) ∧
    (prune wtree 5).1.tree_.children_left[0]? = some 1 ∧
    (prune wtree 5).1.tree_.children_right[2]? = some 6 := by
  have h := C4_prune_mutation wtree 5 (by decide) (by decide) (by decide)
  refine ⟨h.1, h.2.1, (h.2.2.1 1 (by decide) (by decide)).1,
    (h.2.2.1 1 (by decide) (by decide)).2, ?_, ?_⟩
  · rw [(h.2.2.2.1 0 (by decide)).1]
    decide
  · rw [(h.2.2.2.1 2 (by decide)).2]
    decide

/-! ## plot_model_pred_2d (claims C6, C7) -/

/-- The rows of the grid, concatenated, are exactly the predictions at the
raveled meshgrid points in order. -/
lemma grid_join_eq (predict : ℚ × ℚ → ℤ) (xs ys : List ℚ) :
    (ys.map (fun yv => xs.map (fun xv => predict (xv, yv)))).flatten =
      (gridPoints xs ys).map predict := by
  induction ys with
  | nil => rfl
  | cons y t ih =>
    simp only [gridPoints, List.map_cons, List.flatten_cons, List.flatMap_cons,
      List.map_append, List.map_map] at ih ⊢
    rw [ih]
    rfl

lemma defaultColors_decomp :
    (List.range 255).map defaultColor =
      defaultColor 0 :: (List.range 254).map (fun i => defaultColor (i + 1)) := by
  rw [show (255:ℕ) = 254 + 1 from rfl, List.range_succ_eq_map, List.map_cons, List.map_map]
  rfl

lemma defaultLast :
    ((List.range 254).map (fun i => defaultColor (i + 1))).getLastD (defaultColor 0) =
      defaultColor 254 := by
  rw [List.getLastD_eq_getLast?, List.getLast?_map,
    show (List.range 254).getLast? = some 253 from by decide]
  rfl

/-- C6: with no colormap supplied, plot_model_pred_2d synthesizes the default
gradient — 255 RGB triples interpolated between the translucent orange
#e5813900 and the translucent blue #399de5e0 (alpha dropped by to_rgb) — by
passing them to make_colormap, and the resulting colormap is what both the
contour fill and the scatter call receive.  Since the 255 triples contain no
scalar stops, the produced cdict is the two-row gradient between the first
and last interpolated triples. -/
theorem C6_default_colormap :
    (∀ (predict : ℚ × ℚ → ℤ) (X : List (ℚ × ℚ)),
       (plot_model_pred_2d predict X none).map PlotCalls.contourf_cm =
         (plot_model_pred_2d predict X none).map (fun _ => make_colormap defaultSeq) ∧
       (plot_model_pred_2d predict X none).map PlotCalls.scatter_cm =
         (plot_model_pred_2d predict X none).map (fun _ => make_colormap defaultSeq)) ∧
    defaultSeq.length = 255 ∧
    defaultColor 0 = loColor ∧
    make_colormap defaultSeq =
      some ⟨[(0, none, some ((defaultColor 0).r)), (1, some ((defaultColor 254).r), none)],
            [(0, none, some ((defaultColor 0).g)), (1, some ((defaultColor 254).g), none)],
            [(0, none, some ((defaultColor 0).b)), (1, some ((defaultColor 254).b), none)]⟩ := by
  refine ⟨?_, ?_, ?_, ?_⟩
  · intro predict X
    cases h0 : (X.map Prod.fst).min? <;>
    cases h1 : (X.map Prod.fst).max? <;>
    cases h2 : (X.map Prod.snd).min? <;>
    cases h3 : (X.map Prod.snd).max? <;>
      simp [plot_model_pred_2d, h0, h1, h2, h3, resolveCm]
  · simp [defaultSeq, colorItems]
  · simp [defaultColor, loColor, hiColor]
  · rw [defaultSeq, defaultColors_decomp, make_colormap_onlyTriples, defaultLast]

lemma linspace_getElem (a b : ℚ) (i : ℕ) (h : i < 100) :
    (linspace a b 100)[i]? = some (a + (b - a) * (i : ℚ) / 99) := by
  rw [linspace, List.getElem?_map, List.getElem?_eq_getElem (by simpa using h)]
  simp only [List.getElem_range, Option.map_some]
  norm_num

lemma linspace_head (a b : ℚ) : (linspace a b 100).head? = some a := by
  rw [linspace, List.head?_map, show (List.range 100).head? = some 0 from by decide]
  simp

lemma linspace_last (a b : ℚ) : (linspace a b 100).getLast? = some b := by
  rw [linspace, List.getLast?_map, show (List.range 100).getLast? = some 99 from by decide]
  show some (a + (b - a) * ((99 : ℕ) : ℚ) / (((100 : ℕ) : ℚ) - 1)) = some b
  congr 1
  push_cast
  field_simp
  ring

/-- C7: plot_model_pred_2d computes the per-column min/max of the feature
matrix and queries predict at every point of the uniform 100×100 grid whose
axes span exactly [min, max] of the corresponding column (linspace sample i
of 100 is min + (max−min)·i/99, so sample 0 is the min and sample 99 the
max), reshaping the predictions to the 100×100 layout with the second feature
along the rows. -/
theorem C7_prediction_grid (predict : ℚ × ℚ → ℤ) (X : List (ℚ × ℚ))
    (cm : Option Cdict) (a b c d : ℚ)
    (ha : (X.map Prod.fst).min? = some a) (hb : (X.map Prod.fst).max? = some b)
    (hc : (X.map Prod.snd).min? = some c) (hd : (X.map Prod.snd).max? = some d) :
    ∃ pc : PlotCalls, plot_model_pred_2d predict X cm = some pc ∧
      pc.grid.length = 100 ∧
      (∀ j : ℕ, j < 100 → ∃ row, pc.grid[j]? = some row ∧ row.length = 100 ∧
        ∀ i : ℕ, i < 100 → row[i]? =
          some (predict (a + (b - a) * (i : ℚ) / 99, c + (d - c) * (j : ℚ) / 99))) ∧
      (linspace a b 100).head? = some a ∧ (linspace a b 100).getLast? = some b ∧
      (linspace c d 100).head? = some c ∧ (linspace c d 100).getLast? = some d := by
  refine ⟨⟨(linspace c d 100).map (fun yv => (linspace a b 100).map
      (fun xv => predict (xv, yv))), resolveCm cm, resolveCm cm⟩,
    ?_, ?_, ?_, linspace_head a b, linspace_last a b, linspace_head c d, linspace_last c d⟩
  · simp [plot_model_pred_2d, ha, hb, hc, hd]
  · simp [linspace]
  · intro j hj
    refine ⟨(linspace a b 100).map
        (fun xv => predict (xv, c + (d - c) * (j : ℚ) / 99)), ?_, ?_, ?_⟩
    · rw [List.getElem?_map, linspace_getElem c d j hj]
      rfl
    · simp [linspace]
    · intro i hi
      rw [List.getElem?_map, linspace_getElem a b i hi]
      rfl

/-- Witness for C7 on the 2-point matrix (0,0), (1,1) and the constantly-0
classifier. -/
theorem C7_prediction_grid_witness :
    (([((0:ℚ),(0:ℚ)), (1,1)].map Prod.fst).min? = some 0) ∧
    (([((0:ℚ),(0:ℚ)), (1,1)].map Prod.fst).max? = some 1) ∧
    (([((0:ℚ),(0:ℚ)), (1,1)].map Prod.snd).min? = some 0) ∧
    (([((0:ℚ),(0:ℚ)), (1,1)].map Prod.snd).max? = some 1) ∧
    (∃ pc : PlotCalls,
      plot_model_pred_2d (fun _ => (0:ℤ)) [((0:ℚ),(0:ℚ)), (1,1)] none = some pc ∧
      pc.grid.length = 100 ∧
      (∀ j : ℕ, j < 100 → ∃ row, pc.grid[j]? = some row ∧ row.length = 100 ∧
        ∀ i : ℕ, i < 100 → row[i]? = some 0) ∧
      (linspace 0 1 100).head? = some 0 ∧ (linspace 0 1 100).getLast? = some 1 ∧
      (linspace 0 1 100).head? = some 0 ∧ (linspace 0 1 100).getLast? = some 1) := by
  refine ⟨by decide, by decide, by decide, by decide, ?_⟩
  exact C7_prediction_grid (fun _ => 0) [((0:ℚ),(0:ℚ)), (1,1)] none 0 1 0 1
    (by decide) (by decide) (by decide) (by decide)

/-! ## create_graph (claims C5, C8, C9) -/

/-- C8: with no colormap argument create_graph sets no node fill color —
every node of the returned graph keeps the attributes assigned by the tree
exporter's output. -/
theorem C8_no_cmap_keeps_defaults (cw : ℚ → ℚ × ℚ × ℚ × ℚ) (graph : List GNode) :
    create_graph cw graph none = some graph := rfl

/-! ## Claim C5 -/

/-- C5 evaluated at the failing input: for every coolwarm table and every
graph, create_graph applied to a colormap sample array — here the docstring's
own 256×4 example — raises ValueError at `if cmap:` (the truth value of a
multi-element array is ambiguous) before any node is colored, contradicting
the claimed coloring behaviour. -/
theorem C5_colormap_array_raises (cw : ℚ → ℚ × ℚ × ℚ × ℚ) (graph : List GNode) :
    create_graph cw graph (some cmapExample) = none := rfl

/-! ## Claim C9 -/

/-- C9 counterexample: on the same one-node graph, two non-empty supplied
arrays produce different node colors — the 1×1 array [[0.]] is falsy at
`if cmap:`, so the exporter's fill color survives, while the 1×1 array
[[1.]] is truthy and the node is recolored — refuting the claim that the
argument acts only as a presence flag with contents never influencing the
result. -/
theorem C9_counterexample :
    create_graph cwGray [⟨some "value = [1, 1]", some "#ffffff"⟩]
        (some ⟨[1, 1], [0]⟩) ≠
      create_graph cwGray [⟨some "value = [1, 1]", some "#ffffff"⟩]
        (some ⟨[1, 1], [1]⟩) := by
  with_unfolding_all decide

/-- C9 (amended): the numeric contents of the supplied array influence only
whether the call errors and whether the coloring branch runs (the `if cmap:`
truth test — an error for any multi-element array — and the `cmap.shape[1]`
read); whenever two supplied arrays both pass the truth test as true and
have a second shape dimension, every node receives the identical fill color,
computed solely from the fixed cool-to-warm table. -/
theorem C9_amended_contents_ignored (cw : ℚ → ℚ × ℚ × ℚ × ℚ) (graph : List GNode)
    (a1 a2 : NpArray) (d1 d2 : ℕ)
    (h1 : npTruth a1 = some true) (h2 : npTruth a2 = some true)
    (hs1 : a1.shape[1]? = some d1) (hs2 : a2.shape[1]? = some d2) :
    create_graph cw graph (some a1) = create_graph cw graph (some a2) := by
  simp [create_graph, h1, h2, hs1, hs2]

/-- Witness for the amended C9: two different truthy 1×1 arrays color the
same labelled node identically. -/
theorem C9_amended_contents_ignored_witness :
    npTruth ⟨[1, 1], [1]⟩ = some true ∧ npTruth ⟨[1, 1], [2]⟩ = some true ∧
    (⟨[1, 1], [1]⟩ : NpArray).shape[1]? = some 1 ∧
    (⟨[1, 1], [2]⟩ : NpArray).shape[1]? = some 1 ∧
    create_graph cwGray [⟨some "value = [1, 1]", some "#ffffff"⟩]
        (some ⟨[1, 1], [1]⟩) =
      create_graph cwGray [⟨some "value = [1, 1]", some "#ffffff"⟩]
        (some ⟨[1, 1], [2]⟩) := by
  refine ⟨by decide, by decide, by decide, by decide, ?_⟩
  exact C9_amended_contents_ignored cwGray
    [⟨some "value = [1, 1]", some "#ffffff"⟩] ⟨[1, 1], [1]⟩ ⟨[1, 1], [2]⟩ 1 1
    (by decide) (by decide) (by decide) (by decide)
